import Mathlib

/-!
Verification development for a tabular CSV-cleaning pipeline
(`src/csv_cleaner.py`).  The pipeline operates on an in-memory
tabular dataset (a pandas DataFrame in the source); we embed it
shallowly: a dataset is a list of headers (column name plus the
pandas dtype tag) together with a list of rows, each row a list of
cells.  A cell is either a concrete value (rational number, string,
or calendar date) or the Missing marker (NaN/NaT in the source).

Machine floats are modelled by exact rationals; the NaN semantics of
float comparisons is made explicit at each point where the source can
produce a NaN (documented at `keepCell`).  Fallible configuration
handling returns `Except`.
-/

/-- A cell value: `missing` models NaN/NaT, `num` a numeric value
(int64/float64 entries, modelled exactly by ℚ), `str` a Python string,
`date` a datetime64 value (calendar day precision suffices here). -/
inductive Cell where
  | missing : Cell
  | num : ℚ → Cell
  | str : String → Cell
  | date : ℕ → ℕ → ℕ → Cell
deriving DecidableEq, Repr

/-- The pandas dtype tag of a column: `obj` models `object` (strings),
`numeric` models `int64`/`float64`, `datetime` models `datetime64[ns]`. -/
inductive Dtype where
  | obj : Dtype
  | numeric : Dtype
  | datetime : Dtype
deriving DecidableEq, Repr

/-- A column header: the column name and its current dtype. -/
structure Header where
  name : String
  dtype : Dtype
deriving DecidableEq, Repr

/-- A DataFrame: named, dtype-tagged columns and a list of rows.
Invariant (maintained by pandas, assumed where needed): every row has
exactly `headers.length` cells. -/
structure Dataset where
  headers : List Header
  rows : List (List Cell)
deriving DecidableEq, Repr

/-- The cells of column `j`, read out of the rows. -/
def colCells (rows : List (List Cell)) (j : ℕ) : List Cell :=
  rows.map (fun r => r.getD j Cell.missing)

/-- Overwrite column `j` with `cells` (one per row), as in `df[col] = s`. -/
def setCol (rows : List (List Cell)) (j : ℕ) (cells : List Cell) : List (List Cell) :=
  (rows.zip cells).map (fun rc => rc.1.set j rc.2)

/-- Python `str.strip` whitespace set (ASCII part; the source data is
ASCII except where noted). -/
def isPyWs (c : Char) : Bool :=
  c = ' ' || c = '\t' || c = '\n' || c = '\r' || c = '\x0b' || c = '\x0c'

/-- Python `str.strip()`: drop leading and trailing whitespace. -/
def pyStrip (l : List Char) : List Char :=
  ((l.dropWhile isPyWs).reverse.dropWhile isPyWs).reverse

/-- `re.sub(' +', ' ', x)`: collapse each run of spaces to one space. -/
def collapseSpaces : List Char → List Char
  | [] => []
  | [c] => [c]
  | c₁ :: c₂ :: rest =>
    if c₁ = ' ' && c₂ = ' ' then collapseSpaces (c₂ :: rest)
    else c₁ :: collapseSpaces (c₂ :: rest)

/-- The allow-set of `re.sub(r'[^a-z0-9\s.,!?-]', '', x)`:
lowercase letters, digits, whitespace, and `.` `,` `!` `?` `-`. -/
def allowedChar (c : Char) : Bool :=
  (decide ('a' ≤ c) && decide (c ≤ 'z')) ||
  (decide ('0' ≤ c) && decide (c ≤ '9')) ||
  isPyWs c || c = '.' || c = ',' || c = '!' || c = '?' || c = '-'

/-- The per-cell string cleaning chain of `clean_string_columns`:
strip, lowercase, replace newlines and tabs by spaces, collapse runs
of spaces, then delete characters outside the allow-set.  (`Char.toLower`
models Python `str.lower` on ASCII; non-ASCII letters are unchanged by
both on the inputs considered and are deleted by the final filter.) -/
def normalizeString (s : String) : String :=
  let l₁ := pyStrip s.data
  let l₂ := l₁.map Char.toLower
  let l₃ := l₂.map (fun c => if c = '\n' then ' ' else c)
  let l₄ := l₃.map (fun c => if c = '\t' then ' ' else c)
  let l₅ := collapseSpaces l₄
  String.mk (l₅.filter allowedChar)

/-- `astype(str)` on a single cell: NaN prints as the literal string
"nan"; a string is itself.  (Numeric and datetime cells never sit in an
`object` column in this pipeline; their rendering is irrelevant and
modelled by a plain placeholder.) -/
def cellToPyStr : Cell → String
  | Cell.missing => "nan"
  | Cell.str s => s
  | Cell.num _ => ""
  | Cell.date _ _ _ => ""

/-- `clean_string_columns` acts on every `object`-dtype column and
leaves the others alone; this is the action on one cell of a column
with header `h`. -/
def cleanHC (h : Header) (c : Cell) : Cell :=
  if h.dtype = Dtype.obj then Cell.str (normalizeString (cellToPyStr c)) else c

/-- `clean_string_columns(df)`: for each `object` column, `astype(str)`
followed by the cleaning chain, cell by cell.  The columns are
independent, so the per-column loop of the source is embedded as one
row-wise pass. -/
def clean_string_columns (ds : Dataset) : Dataset :=
  { ds with rows := ds.rows.map (fun r => List.zipWith cleanHC ds.headers r) }

/-- Value of a digit string (most significant first). -/
def digitsToNat (l : List Char) : ℕ :=
  l.foldl (fun n c => 10 * n + (c.toNat - '0'.toNat)) 0

/-- `pd.to_numeric(_, errors='coerce')` on one string: an optionally
signed decimal literal (digits with an optional fractional part), with
surrounding whitespace ignored.  Exponent forms and the special float
spellings parse to NaN or are out of scope for the data considered;
note that the string "nan" is deliberately not a number here — in the
source it coerces to NaN, which counts as a failed parse. -/
def parseRat (s : String) : Option ℚ :=
  let l := pyStrip s.data
  let signAndBody : Bool × List Char :=
    match l with
    | '-' :: t => (true, t)
    | '+' :: t => (false, t)
    | t => (false, t)
  let neg := signAndBody.1
  let body := signAndBody.2
  let ip := body.takeWhile Char.isDigit
  let rest := body.dropWhile Char.isDigit
  let val : Option ℚ :=
    match rest with
    | [] => if ip.isEmpty then none else some ((digitsToNat ip : ℚ))
    | '.' :: fp =>
      if fp.all Char.isDigit && !(ip.isEmpty && fp.isEmpty) then
        some ((digitsToNat ip : ℚ) + (digitsToNat fp : ℚ) / (10 ^ fp.length))
      else none
    | _ => none
  val.map (fun q => if neg then -q else q)

/-- `pd.to_numeric(_, errors='coerce')` on one cell: numbers pass
through, unparseable strings and NaN coerce to NaN.  (Datetime cells
never reach this function: `infer_and_convert_types` skips the
date-named columns, and only those are datetime-typed.) -/
def toNumericCell : Cell → Cell
  | Cell.num q => Cell.num q
  | Cell.str s =>
    match parseRat s with
    | some q => Cell.num q
    | none => Cell.missing
  | Cell.missing => Cell.missing
  | Cell.date _ _ _ => Cell.missing

/-- Does `pat` occur at the start of `l`? -/
def seqStartsWith : List Char → List Char → Bool
  | [], _ => true
  | _ :: _, [] => false
  | p :: ps, c :: cs => p = c && seqStartsWith ps cs

/-- Does `pat` occur as a contiguous subsequence of `l`? -/
def containsSeq (pat : List Char) : List Char → Bool
  | [] => seqStartsWith pat []
  | c :: cs => seqStartsWith pat (c :: cs) || containsSeq pat cs

/-- `'date' in col.lower()`: the column-name heuristic for date columns. -/
def containsDateCI (s : String) : Bool :=
  containsSeq "date".data (s.data.map Char.toLower)

/-- Count of cells of a column that survive `pd.to_numeric` coercion
(`num_values.notna().sum()` in the source). -/
def numericCount (cells : List Cell) : ℕ :=
  (cells.map toNumericCell).countP (fun c => decide (c ≠ Cell.missing))

/-- The promotion test of `infer_and_convert_types` for one column:
the name must not contain "date" (case-insensitively) and strictly
more than 80% of the cells must coerce to numbers
(`num_values.notna().sum() / len(df) > 0.8`; `4/5` is exactly
representable in the comparison the source performs, and an empty
dataframe yields a NaN ratio, which also fails the `>`). -/
def promoteFlag (nrows : ℕ) (h : Header) (cells : List Cell) : Bool :=
  !(containsDateCI h.name) && decide (5 * numericCount cells > 4 * nrows)

/-- `infer_and_convert_types(df)`: each non-date-named column whose
cells coerce to numbers in strictly more than 80% of the rows is
replaced by the coerced column (unparseable cells become Missing) and
its dtype becomes numeric; every other column is untouched. -/
def infer_and_convert_types (ds : Dataset) : Dataset :=
  let flags : List Bool :=
    (List.range ds.headers.length).map (fun j =>
      match ds.headers.get? j with
      | some h => promoteFlag ds.rows.length h (colCells ds.rows j)
      | none => false)
  { headers := List.zipWith (fun b h => if b then { h with dtype := Dtype.numeric } else h)
      flags ds.headers,
    rows := ds.rows.map (fun r =>
      List.zipWith (fun b c => if b then toNumericCell c else c) flags r) }

/-- Field order of a date format string. -/
inductive FieldOrder where
  | ymd : FieldOrder
  | dmy : FieldOrder
  | mdy : FieldOrder
deriving DecidableEq, Repr

/-- A candidate date format: field order plus separator (`none` models
the compact `%Y%m%d`). -/
structure DateFmt where
  ord : FieldOrder
  sep : Option Char
deriving DecidableEq, Repr

/-- The fixed candidate list of `convert_dates`:
`%Y-%m-%d`, `%d/%m/%Y`, `%m/%d/%Y`, `%Y/%m/%d`, `%d-%m-%Y`, `%m-%d-%Y`,
`%Y%m%d`. -/
def dateFormats : List DateFmt :=
  [⟨FieldOrder.ymd, some '-'⟩, ⟨FieldOrder.dmy, some '/'⟩, ⟨FieldOrder.mdy, some '/'⟩,
   ⟨FieldOrder.ymd, some '/'⟩, ⟨FieldOrder.dmy, some '-'⟩, ⟨FieldOrder.mdy, some '-'⟩,
   ⟨FieldOrder.ymd, none⟩]

/-- Split a character list on a separator character. -/
def splitOnChar (sep : Char) : List Char → List (List Char)
  | [] => [[]]
  | c :: t =>
    let r := splitOnChar sep t
    if c = sep then [] :: r
    else
      match r with
      | [] => [[c]]
      | h :: t' => (c :: h) :: t'

/-- Gregorian leap-year rule (used by `strptime` date validation). -/
def isLeapYear (y : ℕ) : Bool :=
  (y % 4 = 0 && y % 100 ≠ 0) || y % 400 = 0

/-- Number of days of month `m` in year `y`. -/
def daysInMonth (y m : ℕ) : ℕ :=
  if m = 2 then (if isLeapYear y then 29 else 28)
  else if m = 4 || m = 6 || m = 9 || m = 11 then 30
  else 31

/-- Are all characters decimal digits? -/
def allDigits (l : List Char) : Bool := l.all Char.isDigit

/-- Calendar validation performed by `datetime.strptime`. -/
def mkDate (y m d : ℕ) : Option (ℕ × ℕ × ℕ) :=
  if 1 ≤ m && m ≤ 12 && 1 ≤ d && d ≤ daysInMonth y m then some (y, m, d) else none

/-- One numeric field of a date string: all digits, with a length
between `len1` and `len2` (`%Y` is four digits, `%m`/`%d` one or two). -/
def parseField (len1 len2 : ℕ) (l : List Char) : Option ℕ :=
  if allDigits l && decide (len1 ≤ l.length) && decide (l.length ≤ len2) then
    some (digitsToNat l)
  else none

/-- `datetime.strptime(s, fmt)` for the seven candidate formats
(compact `%Y%m%d` modelled as exactly eight digits). -/
def parseDate (fmt : DateFmt) (s : String) : Option (ℕ × ℕ × ℕ) :=
  match fmt.sep with
  | some sep =>
    match splitOnChar sep s.data with
    | [a, b, c] =>
      match fmt.ord with
      | FieldOrder.ymd => do
        let y ← parseField 4 4 a
        let m ← parseField 1 2 b
        let d ← parseField 1 2 c
        mkDate y m d
      | FieldOrder.dmy => do
        let d ← parseField 1 2 a
        let m ← parseField 1 2 b
        let y ← parseField 4 4 c
        mkDate y m d
      | FieldOrder.mdy => do
        let m ← parseField 1 2 a
        let d ← parseField 1 2 b
        let y ← parseField 4 4 c
        mkDate y m d
    | _ => none
  | none =>
    let l := s.data
    if allDigits l && decide (l.length = 8) then
      mkDate (digitsToNat (l.take 4)) (digitsToNat ((l.drop 4).take 2)) (digitsToNat (l.drop 6))
    else none

/-- `pd.to_datetime(_, format=fmt, errors='coerce')` on one cell:
strings parse or coerce to NaT, datetime values pass through with the
format ignored, NaT stays NaT.  (Numeric cells in a date-named column
are out of scope for the data considered and coerce to NaT.) -/
def toDatetimeCell (fmt : DateFmt) : Cell → Cell
  | Cell.str s =>
    match parseDate fmt s with
    | some (y, m, d) => Cell.date y m d
    | none => Cell.missing
  | Cell.date y m d => Cell.date y m d
  | Cell.num _ => Cell.missing
  | Cell.missing => Cell.missing

/-- The format loop of `convert_dates` on one column.  Faithful to the
source: the column is OVERWRITTEN with the coerced result before the
success test (`df[col] = pd.to_datetime(...)`, then
`if df[col].notna().sum() > 0: break`), so the next format is tried on
the overwritten cells, not on the original strings. -/
def convertColumn : List DateFmt → List Cell → List Cell
  | [], cells => cells
  | f :: fs, cells =>
    let cells' := cells.map (toDatetimeCell f)
    if cells'.any (fun c => decide (c ≠ Cell.missing)) then cells'
    else convertColumn fs cells'

/-- Indices of the date-named columns. -/
def dateIdxs (hs : List Header) : List ℕ :=
  (List.range hs.length).filter (fun j =>
    match hs.get? j with
    | some h => containsDateCI h.name
    | none => false)

/-- `convert_dates(df)`: every column whose name contains "date"
(case-insensitively) goes through the format loop; its dtype becomes
datetime (the assignment `df[col] = pd.to_datetime(...)` always runs at
least once). -/
def convert_dates (ds : Dataset) : Dataset :=
  { headers := ds.headers.map (fun h =>
      if containsDateCI h.name then { h with dtype := Dtype.datetime } else h),
    rows := (dateIdxs ds.headers).foldl
      (fun rows j => setCol rows j (convertColumn dateFormats (colCells rows j))) ds.rows }

/-- The numeric values of a column, missing cells skipped
(pandas `mean`/`std` skip NaN). -/
def nonMissingVals (cells : List Cell) : List ℚ :=
  cells.filterMap (fun c =>
    match c with
    | Cell.num q => some q
    | _ => none)

/-- `df[column].mean()` over the non-missing values. -/
def listMean (l : List ℚ) : ℚ := l.sum / (l.length : ℚ)

/-- `df[column].std()`: pandas uses the SAMPLE variance (`ddof=1`),
i.e. `Σ (x - mean)² / (n - 1)`.  For `n ≤ 1` the source value is NaN;
callers guard that case explicitly. -/
def sampleVar (l : List ℚ) : ℚ :=
  ((l.map (fun x => (x - listMean l) ^ 2)).sum) / ((l.length : ℚ) - 1)

/-- The keep test `z_scores < n_std` of `detect_outliers` on one
numeric value `x`, given the column's non-missing values `vals`.
NaN semantics of the source, made explicit:
* fewer than two values: `std()` is NaN, the z-score is NaN, and
  `NaN < t` is false — the row is removed;
* zero variance: the z-score is `0/0 = NaN` (or `|x-μ|/0 = inf` were
  `x ≠ μ` possible), and both fail `< t` — the row is removed;
* otherwise the float comparison `|x-μ|/σ < t` holds exactly when
  `0 < t` and `(x-μ)² < t²·σ²` (see `zscoreLt_iff_real`), which is the
  decidable rational form used here. -/
def keepQ (vals : List ℚ) (t : ℚ) (x : ℚ) : Bool :=
  decide (2 ≤ vals.length) && decide (sampleVar vals ≠ 0) &&
  decide (0 < t ∧ (x - listMean vals) ^ 2 < t ^ 2 * sampleVar vals)

/-- The keep test on one cell: a missing cell has a NaN z-score and is
removed (`NaN < t` is false). -/
def keepCell (vals : List ℚ) (t : ℚ) : Cell → Bool
  | Cell.num x => keepQ vals t x
  | _ => false

/-- Index of the column named `c` (`df[column]`). -/
def findColIdx (hs : List Header) (c : String) : Option ℕ :=
  hs.findIdx? (fun h => h.name == c)

/-- One iteration of the column loop of `detect_outliers`: if the named
column has a numeric dtype, its statistics are computed over the rows
that are still present, and the rows are filtered by the z-score test. -/
def outlierStep (hs : List Header) (t : ℚ) (rows : List (List Cell)) (cname : String) :
    List (List Cell) :=
  match findColIdx hs cname with
  | none => rows
  | some j =>
    match hs.get? j with
    | some h =>
      if h.dtype = Dtype.numeric then
        let vals := nonMissingVals (colCells rows j)
        rows.filter (fun r => keepCell vals t (r.getD j Cell.missing))
      else rows
    | none => rows

/-- `detect_outliers(df, columns, n_std)`: the z-score filter applied
column by column; statistics are computed once per column, over the
rows surviving the previous columns' filters. -/
def detect_outliers (ds : Dataset) (columns : List String) (n_std : ℚ) : Dataset :=
  { ds with rows := columns.foldl (outlierStep ds.headers n_std) ds.rows }

/-- `df.drop_duplicates()` keeps the first occurrence of each row;
`seen` accumulates the rows already emitted.  NaN markers compare equal
to each other for this purpose, as in pandas. -/
def dedupRows {α : Type} [DecidableEq α] (seen : List α) : List α → List α
  | [] => []
  | r :: rs => if r ∈ seen then dedupRows seen rs else r :: dedupRows (r :: seen) rs

/-- Declarative form of keep-first deduplication: keep the head, then
deduplicate the tail with all copies of the head removed. -/
def specDedup {α : Type} [DecidableEq α] : List α → List α
  | [] => []
  | r :: rs => r :: specDedup (rs.filter (fun x => decide (x ≠ r)))
termination_by l => l.length
decreasing_by
  simp only [List.length_cons]
  exact Nat.lt_succ_of_le (List.length_filter_le _ _)

/-- `df.drop_duplicates()`. -/
def drop_duplicates (ds : Dataset) : Dataset :=
  { ds with rows := dedupRows [] ds.rows }

/-- `df.dropna()`: remove every row with a missing cell in any column. -/
def dropna (ds : Dataset) : Dataset :=
  { ds with rows := ds.rows.filter (fun r => r.all (fun c => decide (c ≠ Cell.missing))) }

/-- Fill one row from a per-column list of optional fill values:
only missing cells are replaced, and only where a fill value exists. -/
def fillRow (fills : List (Option Cell)) (r : List Cell) : List Cell :=
  List.zipWith (fun fo c =>
    match fo, c with
    | some v, Cell.missing => v
    | _, _ => c) fills r

/-- `df.fillna(per-column values)`. -/
def constFill (fills : List (Option Cell)) (ds : Dataset) : Dataset :=
  { ds with rows := ds.rows.map (fillRow fills) }

/-- `df.mean()`: per numeric column the mean of the non-missing values;
an all-missing numeric column has a NaN mean and fills nothing. -/
def meanFills (ds : Dataset) : List (Option Cell) :=
  (List.range ds.headers.length).map (fun j =>
    match ds.headers.get? j with
    | some h =>
      if h.dtype = Dtype.numeric then
        let vals := nonMissingVals (colCells ds.rows j)
        if vals.length = 0 then none else some (Cell.num (listMean vals))
      else none
    | none => none)

/-- Insertion into a sorted list (ascending). -/
def insertSorted (x : ℚ) : List ℚ → List ℚ
  | [] => [x]
  | y :: ys => if x ≤ y then x :: y :: ys else y :: insertSorted x ys

/-- Insertion sort (ascending). -/
def sortQ (l : List ℚ) : List ℚ := l.foldr insertSorted []

/-- `Series.median()`: middle of the sorted values, or the mean of the
two middle values for an even count. -/
def medianQ (l : List ℚ) : ℚ :=
  let s := sortQ l
  let n := s.length
  if n % 2 = 1 then s.getD (n / 2) 0
  else (s.getD (n / 2 - 1) 0 + s.getD (n / 2) 0) / 2

/-- `df.median()` per column, as `meanFills`. -/
def medianFills (ds : Dataset) : List (Option Cell) :=
  (List.range ds.headers.length).map (fun j =>
    match ds.headers.get? j with
    | some h =>
      if h.dtype = Dtype.numeric then
        let vals := nonMissingVals (colCells ds.rows j)
        if vals.length = 0 then none else some (Cell.num (medianQ vals))
      else none
    | none => none)

/-- Most frequent cell of a list (NaN excluded), the earliest among
ties.  Models `df.mode().iloc[0]` per column; pandas breaks ties by
sorted order, a difference immaterial to every claim considered. -/
def modeCell (l : List Cell) : Option Cell :=
  l.foldl (fun best c =>
    match best with
    | none => some c
    | some b => if l.count c > l.count b then some c else some b) none

/-- `df.mode().iloc[0]` per column (all dtypes), used by `fillna`. -/
def modeFills (ds : Dataset) : List (Option Cell) :=
  (List.range ds.headers.length).map (fun j =>
    modeCell ((colCells ds.rows j).filter (fun c => decide (c ≠ Cell.missing))))

/-- `Series.ffill()`: carry the last non-missing value downwards; a
leading run of missing values stays missing. -/
def ffillColumn (last : Option Cell) : List Cell → List Cell
  | [] => []
  | c :: cs =>
    if c = Cell.missing then last.getD Cell.missing :: ffillColumn last cs
    else c :: ffillColumn (some c) cs

/-- `df.ffill()` (column by column; columns are independent). -/
def ffillDS (ds : Dataset) : Dataset :=
  let rows' := (List.range ds.headers.length).foldl
    (fun rows j => setCol rows j (ffillColumn none (colCells rows j))) ds.rows
  { ds with rows := rows' }

/-- `df.bfill()`: forward fill on the reversed column. -/
def bfillDS (ds : Dataset) : Dataset :=
  let rows' := (List.range ds.headers.length).foldl
    (fun rows j => setCol rows j ((ffillColumn none (colCells rows j).reverse).reverse)) ds.rows
  { ds with rows := rows' }

/-- `handle_missing_values(df, strategy, fill_value)`.  The `fill`
strategy with no fill mapping only logs a warning and returns the
dataframe unchanged; an unrecognized strategy raises `ValueError`. -/
def handle_missing_values (df : Dataset) (strategy : String)
    (fill_value : Option (List (String × Cell))) : Except String Dataset :=
  if strategy = "drop" then Except.ok (dropna df)
  else if strategy = "fill" then
    match fill_value with
    | some m => Except.ok (constFill (df.headers.map (fun h => List.lookup h.name m)) df)
    | none => Except.ok df
  else if strategy = "mean" then Except.ok (constFill (meanFills df) df)
  else if strategy = "median" then Except.ok (constFill (medianFills df) df)
  else if strategy = "mode" then Except.ok (constFill (modeFills df) df)
  else if strategy = "forward_fill" then Except.ok (ffillDS df)
  else if strategy = "backward_fill" then Except.ok (bfillDS df)
  else Except.error ("Unknown strategy " ++ strategy ++ " for handling missing values.")

/-- `df.select_dtypes(include=['int64','float64']).columns`. -/
def numericColNames (ds : Dataset) : List String :=
  (ds.headers.filter (fun h => h.dtype = Dtype.numeric)).map (fun h => h.name)

/-- The cleaning pipeline of `main`: drop duplicates, clean the string
columns, convert the date columns, infer numeric types, remove
outliers from the numeric columns (threshold 3), then handle missing
values with the `mean` strategy. -/
def pipeline (ds : Dataset) : Except String Dataset :=
  let d1 := drop_duplicates ds
  let d2 := clean_string_columns d1
  let d3 := convert_dates d2
  let d4 := infer_and_convert_types d3
  let d5 := if (numericColNames d4).length > 0 then detect_outliers d4 (numericColNames d4) 3
            else d4
  handle_missing_values d5 "mean" none

/-! ### Small constructors used by the concrete statements -/

/-- A dataset with one column. -/
def oneCol (nm : String) (dt : Dtype) (cells : List Cell) : Dataset :=
  ⟨[⟨nm, dt⟩], cells.map (fun c => [c])⟩

/-- A dataset with one numeric column, all cells present. -/
def oneColNum (nm : String) (vals : List ℚ) : Dataset :=
  oneCol nm Dtype.numeric (vals.map Cell.num)

/-- String cells. -/
def strCells (l : List String) : List Cell := l.map Cell.str

/-- The dataset entering the missing-value stage of `pipeline` (the value
of `df` in `main` just before `handle_missing_values`). -/
def preMissing (ds : Dataset) : Dataset :=
  if (numericColNames (infer_and_convert_types (convert_dates
      (clean_string_columns (drop_duplicates ds))))).length > 0
  then detect_outliers
    (infer_and_convert_types (convert_dates (clean_string_columns (drop_duplicates ds))))
    (numericColNames (infer_and_convert_types (convert_dates
      (clean_string_columns (drop_duplicates ds))))) 3
  else infer_and_convert_types (convert_dates (clean_string_columns (drop_duplicates ds)))

/-! ### Deduplication: the accumulator implementation against the
declarative keep-first description -/

theorem specDedup_cons {α : Type} [DecidableEq α] (r : α) (rs : List α) :
    specDedup (r :: rs) = r :: specDedup (rs.filter (fun x => decide (x ≠ r))) := by
  rw [specDedup]

theorem dedupRows_eq_specDedup {α : Type} [DecidableEq α] :
    ∀ (l seen : List α),
      dedupRows seen l = specDedup (l.filter (fun x => decide (x ∉ seen)))
  | [], seen => by simp [dedupRows, specDedup]
  | r :: rs, seen => by
    by_cases hr : r ∈ seen
    · rw [dedupRows, if_pos hr, List.filter_cons_of_neg (by simp [hr]),
        dedupRows_eq_specDedup rs seen]
    · rw [dedupRows, if_neg hr, List.filter_cons_of_pos (by simp [hr]),
        specDedup_cons, dedupRows_eq_specDedup rs (r :: seen)]
      have hfe : List.filter (fun x => decide (x ∉ r :: seen)) rs
          = (rs.filter (fun x => decide (x ∉ seen))).filter (fun x => decide (x ≠ r)) := by
        rw [List.filter_filter]
        apply List.filter_congr
        intro x _
        by_cases h1 : x = r <;> by_cases h2 : x ∈ seen <;> simp [h1, h2]
      rw [hfe]

theorem specDedup_sublist {α : Type} [DecidableEq α] : ∀ l : List α, (specDedup l).Sublist l
  | [] => by simp [specDedup]
  | r :: rs => by
    rw [specDedup_cons]
    exact ((specDedup_sublist (rs.filter (fun x => decide (x ≠ r)))).trans
      (List.filter_sublist _)).cons₂ r
termination_by l => l.length
decreasing_by
  simp only [List.length_cons]
  exact Nat.lt_succ_of_le (List.length_filter_le _ _)

theorem specDedup_mem {α : Type} [DecidableEq α] : ∀ (l : List α) (x : α),
    x ∈ specDedup l ↔ x ∈ l
  | [], x => by simp [specDedup]
  | r :: rs, x => by
    rw [specDedup_cons]
    have hrec := specDedup_mem (rs.filter (fun y => decide (y ≠ r))) x
    rw [List.mem_cons, List.mem_cons, hrec, List.mem_filter]
    by_cases hx : x = r
    · simp [hx]
    · simp [hx]
termination_by l => l.length
decreasing_by
  simp only [List.length_cons]
  exact Nat.lt_succ_of_le (List.length_filter_le _ _)

theorem specDedup_nodup {α : Type} [DecidableEq α] : ∀ l : List α, (specDedup l).Nodup
  | [] => by simp [specDedup]
  | r :: rs => by
    rw [specDedup_cons]
    refine List.nodup_cons.mpr ⟨?_, specDedup_nodup _⟩
    intro hmem
    have := (specDedup_mem _ r).mp hmem
    simp [List.mem_filter] at this
termination_by l => l.length
decreasing_by
  simp only [List.length_cons]
  exact Nat.lt_succ_of_le (List.length_filter_le _ _)

theorem specDedup_eq_self {α : Type} [DecidableEq α] : ∀ l : List α, l.Nodup → specDedup l = l
  | [], _ => by simp [specDedup]
  | r :: rs, h => by
    rw [specDedup_cons]
    have h1 := List.nodup_cons.mp h
    have hf : rs.filter (fun x => decide (x ≠ r)) = rs :=
      List.filter_eq_self.mpr (fun a ha => by
        simp only [ne_eq, decide_not, Bool.not_eq_true', decide_eq_false_iff_not]
        intro he
        exact h1.1 (he ▸ ha))
    rw [hf, specDedup_eq_self rs h1.2]

/-- C5: the deduplication stage removes exactly the rows that equal an
earlier row in every cell (Missing markers comparing equal), keeps the
first occurrence, and preserves the relative order of the survivors;
input rows `[A, A, B]` yield `[A, B]`. -/
theorem drop_duplicates_spec :
    (∀ ds : Dataset, (drop_duplicates ds).headers = ds.headers
        ∧ (drop_duplicates ds).rows = specDedup ds.rows)
    ∧ (∀ rows : List (List Cell), (specDedup rows).Sublist rows
        ∧ (specDedup rows).Nodup ∧ ∀ r, r ∈ specDedup rows ↔ r ∈ rows)
    ∧ (∀ (r : List Cell) (rs : List (List Cell)),
        specDedup (r :: rs) = r :: specDedup (rs.filter (fun x => decide (x ≠ r))))
    ∧ (drop_duplicates ⟨[⟨"c", Dtype.obj⟩],
        [[Cell.str "A"], [Cell.str "A"], [Cell.str "B"]]⟩).rows
      = [[Cell.str "A"], [Cell.str "B"]] := by
  refine ⟨fun ds => ⟨rfl, ?_⟩,
    fun rows => ⟨specDedup_sublist _, specDedup_nodup _, fun r => specDedup_mem _ _⟩,
    fun r rs => specDedup_cons r rs, by decide⟩
  rw [show (drop_duplicates ds).rows = dedupRows [] ds.rows from rfl,
    dedupRows_eq_specDedup]
  congr 1
  exact List.filter_eq_self.mpr (fun a _ => by simp)

/-! ### Concrete evaluations settling the zero-variance, z-score example,
threshold, configuration, date and idempotence questions -/

/-- C1: the claim's zero-variance guard does not exist in the code.  For
the constant numeric column `[5,5,5]` the standard deviation is `0`, every
z-score is the float `0/0 = NaN`, `NaN < 3` is false, and `detect_outliers`
therefore removes ALL three rows — not none, and the z-score is never
defined to be `0`. -/
theorem detect_outliers_zero_variance_removes_all :
    (detect_outliers (oneColNum "v" [5, 5, 5]) ["v"] 3).rows = [] := by
  have hvar : sampleVar [5, 5, 5] = 0 := by
    simp [sampleVar, listMean]
    norm_num
  have hk : keepQ [5, 5, 5] 3 5 = false := by
    simp [keepQ, hvar]
  show ([[Cell.num 5], [Cell.num 5], [Cell.num 5]].filter
      (fun r => keepCell [5, 5, 5] 3 (r.getD 0 Cell.missing))) = []
  simp [keepCell, hk]

/-- C2 (counterexample): the claim's example is false on the code.  For the
numeric column `[1,2,3,4,100]` and threshold `3.0`, the row containing
`100` is NOT removed: the z-score of `100` is about `1.79` with the sample
standard deviation pandas computes (about `2.0` even with the population
one), so no row can exceed `3`. -/
theorem detect_outliers_example_row_not_removed :
    [Cell.num 100] ∈ (detect_outliers (oneColNum "v" [1, 2, 3, 4, 100]) ["v"] 3).rows := by
  have hm : listMean [1, 2, 3, 4, 100] = 22 := by
    simp [listMean]
    norm_num
  have hv : sampleVar [1, 2, 3, 4, 100] = 3805 / 2 := by
    simp [sampleVar, hm]
    norm_num
  have hk : keepQ [1, 2, 3, 4, 100] 3 100 = true := by
    simp [keepQ, hm, hv]
    norm_num
  show [Cell.num 100] ∈ ([[Cell.num 1], [Cell.num 2], [Cell.num 3], [Cell.num 4],
      [Cell.num 100]].filter (fun r => keepCell [1, 2, 3, 4, 100] 3 (r.getD 0 Cell.missing)))
  rw [List.mem_filter]
  exact ⟨by simp, by simp [keepCell, hk]⟩

/-- C3 (counterexample): the claim's example is false on the code.  The
promotion test is strict (`> 0.8`), so the column `["1","2","x","3","4"]`,
in which exactly 80% of the cells parse as numbers, is NOT promoted: the
stage leaves it unchanged as a Text column. -/
theorem infer_types_eighty_percent_stays_text :
    infer_and_convert_types (oneCol "v" Dtype.obj (strCells ["1", "2", "x", "3", "4"]))
      = oneCol "v" Dtype.obj (strCells ["1", "2", "x", "3", "4"]) := rfl

/-- C4 (counterexample): the claim is false for the `fill` strategy with no
fill-value mapping: the code only logs a warning and returns the dataframe
unchanged — no error is raised and the pipeline does not abort, even when
missing cells are present. -/
theorem handle_missing_fill_without_mapping_no_error :
    handle_missing_values ⟨[⟨"v", Dtype.numeric⟩], [[Cell.missing]]⟩ "fill" none
      = Except.ok ⟨[⟨"v", Dtype.numeric⟩], [[Cell.missing]]⟩ := rfl

/-- C7: the format loop of `convert_dates` overwrites the column with the
coerced result BEFORE testing for success, so a later format never sees the
original strings.  The date-named column `["05/01/2023"]` parses under the
second candidate format `%d/%m/%Y` (second conjunct), yet the stage turns it
into all-Missing: the first format `%Y-%m-%d` coerces the column to all-NaT
and every subsequent format only sees NaT. -/
theorem convert_dates_overwrites_before_success_test :
    (convert_dates ⟨[⟨"date", Dtype.obj⟩], [[Cell.str "05/01/2023"]]⟩).rows
        = [[Cell.missing]]
    ∧ parseDate ⟨FieldOrder.dmy, some '/'⟩ "05/01/2023" = some (2023, 1, 5)
    ∧ (convert_dates ⟨[⟨"signup_date", Dtype.obj⟩],
          [[Cell.str "2023-01-05"], [Cell.str "2023-02-10"]]⟩).rows
        = [[Cell.date 2023 1 5], [Cell.date 2023 2 10]] :=
  ⟨rfl, rfl, rfl⟩

/-- C8 (counterexample): the pipeline is not idempotent on its own output.
The character filter of string normalization can expose new trailing
whitespace that only the NEXT run's strip removes: on the single cell
`"a é"` the first run produces `"a "` (the disallowed `é` is deleted after
stripping), and the second run produces `"a"`. -/
theorem pipeline_not_idempotent :
    pipeline ⟨[⟨"val", Dtype.obj⟩], [[Cell.str "a é"]]⟩
        = Except.ok ⟨[⟨"val", Dtype.obj⟩], [[Cell.str "a "]]⟩
    ∧ pipeline ⟨[⟨"val", Dtype.obj⟩], [[Cell.str "a "]]⟩
        = Except.ok ⟨[⟨"val", Dtype.obj⟩], [[Cell.str "a"]]⟩
    ∧ (⟨[⟨"val", Dtype.obj⟩], [[Cell.str "a "]]⟩ : Dataset)
        ≠ ⟨[⟨"val", Dtype.obj⟩], [[Cell.str "a"]]⟩ :=
  ⟨rfl, rfl, by decide⟩

/-! ### Outlier filtering: structural lemmas -/

theorem outlierStep_sublist (hs : List Header) (t : ℚ) (rows : List (List Cell))
    (cname : String) : (outlierStep hs t rows cname).Sublist rows := by
  unfold outlierStep
  split
  · exact List.Sublist.refl _
  · split
    · split
      · exact List.filter_sublist _
      · exact List.Sublist.refl _
    · exact List.Sublist.refl _

theorem foldl_outlierStep_sublist (hs : List Header) (t : ℚ) :
    ∀ (cols : List String) (rows : List (List Cell)),
      (cols.foldl (outlierStep hs t) rows).Sublist rows
  | [], _ => List.Sublist.refl _
  | c :: cs, rows => by
    rw [List.foldl_cons]
    exact (foldl_outlierStep_sublist hs t cs (outlierStep hs t rows c)).trans
      (outlierStep_sublist hs t rows c)

theorem foldl_outlierStep_no_missing (hs : List Header) (t : ℚ) :
    ∀ (cols : List String) (rows : List (List Cell)) (r : List Cell),
      r ∈ cols.foldl (outlierStep hs t) rows →
      ∀ c ∈ cols, ∀ (j : ℕ) (h : Header), findColIdx hs c = some j →
        hs.get? j = some h → h.dtype = Dtype.numeric →
        r.getD j Cell.missing ≠ Cell.missing
  | [], _, _, _, c, hc, _, _, _, _, _ => absurd hc (List.not_mem_nil c)
  | c0 :: cs, rows, r, hr, c, hc, j, h, hfi, hg, hd => by
    rw [List.foldl_cons] at hr
    rcases List.mem_cons.mp hc with rfl | hcs
    · have hr0 : r ∈ outlierStep hs t rows c :=
        (foldl_outlierStep_sublist hs t cs _).subset hr
      unfold outlierStep at hr0
      rw [hfi] at hr0
      simp only at hr0
      rw [hg] at hr0
      simp only at hr0
      rw [if_pos hd] at hr0
      have hkeep := (List.mem_filter.mp hr0).2
      intro hmiss
      rw [hmiss] at hkeep
      simp [keepCell] at hkeep
    · exact foldl_outlierStep_no_missing hs t cs _ r hr c hcs j h hfi hg hd

/-- C10: the outlier filtering stage removes every row that has a Missing
cell in a column it filters on (a numeric-dtype column among the given
names): the Missing cell's z-score is NaN, which fails the keep test
`z < n_std`, so no such row survives to the output. -/
theorem detect_outliers_removes_missing_rows :
    ∀ (ds : Dataset) (cols : List String) (t : ℚ) (r : List Cell),
      r ∈ (detect_outliers ds cols t).rows →
      ∀ c ∈ cols, ∀ (j : ℕ) (h : Header), findColIdx ds.headers c = some j →
        ds.headers.get? j = some h → h.dtype = Dtype.numeric →
        r.getD j Cell.missing ≠ Cell.missing :=
  fun ds cols t r hr => foldl_outlierStep_no_missing ds.headers t cols ds.rows r hr

/-- Witness for C10 at a concrete input: the row `[1]` of the numeric
column `[1,2,3]` survives filtering (every z-score is below 3), and the
theorem yields that its cell in that column is not Missing. -/
theorem detect_outliers_removes_missing_rows_witness :
    [Cell.num 1] ∈ (detect_outliers (oneColNum "v" [1, 2, 3]) ["v"] 3).rows
    ∧ [Cell.num 1].getD 0 Cell.missing ≠ Cell.missing := by
  have hm : listMean [1, 2, 3] = 2 := by
    simp [listMean]
    norm_num
  have hv : sampleVar [1, 2, 3] = 1 := by
    simp [sampleVar, hm]
    norm_num
  have hk : keepQ [1, 2, 3] 3 1 = true := by
    simp [keepQ, hm, hv]
    norm_num
  have hmem : [Cell.num 1] ∈ (detect_outliers (oneColNum "v" [1, 2, 3]) ["v"] 3).rows := by
    show [Cell.num 1] ∈ ([[Cell.num 1], [Cell.num 2], [Cell.num 3]].filter
        (fun r => keepCell [1, 2, 3] 3 (r.getD 0 Cell.missing)))
    rw [List.mem_filter]
    exact ⟨by simp, by simp [keepCell, hk]⟩
  exact ⟨hmem, detect_outliers_removes_missing_rows (oneColNum "v" [1, 2, 3]) ["v"] 3
    [Cell.num 1] hmem "v" (by simp) 0 ⟨"v", Dtype.numeric⟩ rfl rfl rfl⟩

/-! ### Outlier filtering: single-column characterization and the real
meaning of the rational keep test -/

theorem colCells_map_num (vals : List ℚ) :
    colCells (vals.map (fun q => [Cell.num q])) 0 = vals.map Cell.num := by
  simp [colCells, List.map_map]

theorem nonMissingVals_map_num (vals : List ℚ) :
    nonMissingVals (vals.map Cell.num) = vals := by
  induction vals with
  | nil => rfl
  | cons q qs ih =>
    simp only [nonMissingVals, List.map_cons, List.filterMap_cons] at ih ⊢
    rw [ih]

theorem oneColNum_rows (nm : String) (vals : List ℚ) :
    (oneColNum nm vals).rows = vals.map (fun q => [Cell.num q]) := by
  simp [oneColNum, oneCol, List.map_map]

theorem detect_outliers_oneColNum (nm : String) (vals : List ℚ) (t : ℚ) :
    (detect_outliers (oneColNum nm vals) [nm] t).rows
      = (vals.map (fun q => [Cell.num q])).filter
          (fun r => keepCell vals t (r.getD 0 Cell.missing)) := by
  have hfi : findColIdx [⟨nm, Dtype.numeric⟩] nm = some 0 := by
    simp [findColIdx, List.findIdx?_cons]
  have hrows : (oneColNum nm vals).rows = vals.map (fun q => [Cell.num q]) :=
    oneColNum_rows nm vals
  show List.foldl (outlierStep [⟨nm, Dtype.numeric⟩] t) (oneColNum nm vals).rows [nm] = _
  rw [List.foldl_cons, List.foldl_nil]
  unfold outlierStep
  rw [hfi]
  simp only [List.get?]
  rw [if_true, hrows, colCells_map_num, nonMissingVals_map_num]

/-- For positive variance, the rational comparison used by `keepQ` says
exactly that the float z-score `|x - m| / sqrt v` is below `t`. -/
theorem zscoreLt_iff_real (x m v t : ℚ) (hv : 0 < v) :
    (0 < t ∧ (x - m) ^ 2 < t ^ 2 * v) ↔
      |(x : ℝ) - (m : ℝ)| / Real.sqrt (v : ℝ) < (t : ℝ) := by
  have hv' : (0 : ℝ) < (v : ℝ) := by exact_mod_cast hv
  have hs : 0 < Real.sqrt (v : ℝ) := Real.sqrt_pos.mpr hv'
  have hsq : Real.sqrt (v : ℝ) ^ 2 = (v : ℝ) := Real.sq_sqrt hv'.le
  constructor
  · rintro ⟨ht, hlt⟩
    have ht' : (0 : ℝ) < (t : ℝ) := by exact_mod_cast ht
    have hlt' : ((x : ℝ) - (m : ℝ)) ^ 2 < (t : ℝ) ^ 2 * (v : ℝ) := by exact_mod_cast hlt
    rw [div_lt_iff₀ hs]
    have h3 : |(x : ℝ) - (m : ℝ)| ^ 2 < ((t : ℝ) * Real.sqrt (v : ℝ)) ^ 2 := by
      rw [mul_pow, hsq, sq_abs]
      exact hlt'
    exact lt_of_pow_lt_pow_left₀ 2 (mul_nonneg ht'.le hs.le) h3
  · intro h
    have habs : 0 ≤ |(x : ℝ) - (m : ℝ)| / Real.sqrt (v : ℝ) :=
      div_nonneg (abs_nonneg _) hs.le
    have ht' : (0 : ℝ) < (t : ℝ) := lt_of_le_of_lt habs h
    have ht : 0 < t := by exact_mod_cast ht'
    have h2 : |(x : ℝ) - (m : ℝ)| < (t : ℝ) * Real.sqrt (v : ℝ) := (div_lt_iff₀ hs).mp h
    have h3 : |(x : ℝ) - (m : ℝ)| ^ 2 < ((t : ℝ) * Real.sqrt (v : ℝ)) ^ 2 :=
      pow_lt_pow_left₀ h2 (abs_nonneg _) (by norm_num)
    rw [mul_pow, hsq, sq_abs] at h3
    exact ⟨ht, by exact_mod_cast h3⟩

/-- C2 (amended): the outlier stage computes the mean and the SAMPLE
standard deviation (`ddof = 1`, as pandas `std` does — not the population
one) over each numeric column's non-missing cells, keeps exactly the rows
whose z-score is defined and strictly below the threshold (rows with a
missing cell, a zero-variance column or fewer than two observations have
an undefined z-score and are removed), processes columns one by one with
statistics over the currently surviving rows, and never reorders or
duplicates rows.  For the column `[1,2,3,4,100]` with threshold `3.0`, NO
row is removed (the largest z-score is about `1.79`). -/
theorem detect_outliers_spec :
    (∀ (ds : Dataset) (cols : List String) (t : ℚ),
        ((detect_outliers ds cols t).rows).Sublist ds.rows)
    ∧ (∀ (nm : String) (vals : List ℚ) (t : ℚ) (r : List Cell),
        r ∈ (detect_outliers (oneColNum nm vals) [nm] t).rows ↔
          ∃ x ∈ vals, r = [Cell.num x] ∧ keepQ vals t x = true)
    ∧ (∀ x m v t : ℚ, 0 < v →
        ((0 < t ∧ (x - m) ^ 2 < t ^ 2 * v) ↔
          |(x : ℝ) - (m : ℝ)| / Real.sqrt (v : ℝ) < (t : ℝ)))
    ∧ (detect_outliers (oneColNum "v" [1, 2, 3, 4, 100]) ["v"] 3).rows
        = (oneColNum "v" [1, 2, 3, 4, 100]).rows := by
  refine ⟨fun ds cols t => foldl_outlierStep_sublist ds.headers t cols ds.rows,
    fun nm vals t r => ?_, zscoreLt_iff_real,
    ?_⟩
  · rw [detect_outliers_oneColNum]
    constructor
    · intro hr
      obtain ⟨hrm, hkeep⟩ := List.mem_filter.mp hr
      obtain ⟨x, hx, hxr⟩ := List.mem_map.mp hrm
      refine ⟨x, hx, hxr.symm, ?_⟩
      rw [← hxr] at hkeep
      simpa [keepCell] using hkeep
    · rintro ⟨x, hx, rfl, hk⟩
      exact List.mem_filter.mpr ⟨List.mem_map.mpr ⟨x, hx, rfl⟩, by simpa [keepCell] using hk⟩
  · rw [detect_outliers_oneColNum, oneColNum_rows]
    have hm : listMean [1, 2, 3, 4, 100] = 22 := by
      simp [listMean]
      norm_num
    have hv : sampleVar [1, 2, 3, 4, 100] = 3805 / 2 := by
      simp [sampleVar, hm]
      norm_num
    apply List.filter_eq_self.mpr
    intro r hr
    obtain ⟨x, hx, hxr⟩ := List.mem_map.mp hr
    rw [← hxr]
    simp only [List.getD_cons_zero, keepCell]
    simp only [List.mem_cons, List.not_mem_nil, or_false] at hx
    rcases hx with rfl | rfl | rfl | rfl | rfl <;>
      · simp [keepQ, hm, hv]
        norm_num

/-- Witness for C2's bridge conjunct, instantiated at `x = 1`, `m = 0`,
`v = 1`, `t = 3`. -/
theorem detect_outliers_spec_witness :
    (0 : ℚ) < 1
    ∧ (((0 : ℚ) < 3 ∧ ((1 : ℚ) - 0) ^ 2 < (3 : ℚ) ^ 2 * 1) ↔
        |((1 : ℚ) : ℝ) - ((0 : ℚ) : ℝ)| / Real.sqrt ((1 : ℚ) : ℝ) < ((3 : ℚ) : ℝ)) :=
  ⟨by norm_num, detect_outliers_spec.2.2.1 1 0 1 3 (by norm_num)⟩

/-! ### Type inference: the strict 80% threshold -/

theorem colCells_map_singleton (cells : List Cell) :
    colCells (cells.map (fun c => [c])) 0 = cells := by
  induction cells with
  | nil => rfl
  | cons c cs ih =>
    simp only [colCells, List.map_cons] at ih ⊢
    rw [List.getD_cons_zero, ih]

theorem infer_oneCol (nm : String) (dt : Dtype) (cells : List Cell) :
    infer_and_convert_types (oneCol nm dt cells)
      = if promoteFlag cells.length ⟨nm, dt⟩ cells
        then oneCol nm Dtype.numeric (cells.map toNumericCell)
        else oneCol nm dt cells := by
  unfold infer_and_convert_types
  simp only [oneCol, List.length_cons, List.length_nil, List.length_map, List.range_succ,
    List.range_zero, List.nil_append, List.map_cons, List.map_nil, List.get?,
    colCells_map_singleton]
  cases hp : promoteFlag cells.length ⟨nm, dt⟩ cells with
  | false => simp [hp, List.zipWith, Function.comp]
  | true => simp [hp, List.zipWith, Function.comp, List.map_map]

/-- C3 (amended): a non-date-named column is promoted to Numeric exactly
when the fraction of cells parsing as numbers STRICTLY exceeds 0.8, with
unparseable cells becoming Missing.  A column at exactly 80% (such as
`["1","2","x","3","4"]`, see the counterexample theorem) is NOT promoted
and stays Text; `["1","x","y","3","z"]` (40%) stays Text; a column above
80%, such as `["1","2","x","3","4","5"]` (5 of 6), is promoted with
`"x"` becoming Missing. -/
theorem infer_types_strict_threshold :
    (∀ (nm : String) (dt : Dtype) (cells : List Cell),
        infer_and_convert_types (oneCol nm dt cells)
          = if promoteFlag cells.length ⟨nm, dt⟩ cells
            then oneCol nm Dtype.numeric (cells.map toNumericCell)
            else oneCol nm dt cells)
    ∧ (∀ (nm : String) (dt : Dtype) (cells : List Cell),
        5 * numericCount cells ≤ 4 * cells.length →
        infer_and_convert_types (oneCol nm dt cells) = oneCol nm dt cells)
    ∧ toNumericCell (Cell.str "x") = Cell.missing
    ∧ infer_and_convert_types (oneCol "v" Dtype.obj (strCells ["1", "x", "y", "3", "z"]))
        = oneCol "v" Dtype.obj (strCells ["1", "x", "y", "3", "z"])
    ∧ infer_and_convert_types (oneCol "v" Dtype.obj (strCells ["1", "2", "x", "3", "4", "5"]))
        = oneCol "v" Dtype.numeric
            [Cell.num 1, Cell.num 2, Cell.missing, Cell.num 3, Cell.num 4, Cell.num 5] := by
  refine ⟨infer_oneCol, ?_, rfl, rfl, rfl⟩
  intro nm dt cells hle
  rw [infer_oneCol]
  have hd : decide (5 * numericCount cells > 4 * cells.length) = false :=
    decide_eq_false (Nat.not_lt.mpr hle)
  have hp : promoteFlag cells.length ⟨nm, dt⟩ cells = false := by
    simp [promoteFlag, hd]
  rw [hp]
  simp

/-- Witness for C3 at the 80% column: the hypothesis `5·4 ≤ 4·5` holds and
the stage leaves the column unchanged. -/
theorem infer_types_strict_threshold_witness :
    5 * numericCount (strCells ["1", "2", "x", "3", "4"])
        ≤ 4 * (strCells ["1", "2", "x", "3", "4"]).length
    ∧ infer_and_convert_types (oneCol "v" Dtype.obj (strCells ["1", "2", "x", "3", "4"]))
        = oneCol "v" Dtype.obj (strCells ["1", "2", "x", "3", "4"]) :=
  ⟨by decide, infer_types_strict_threshold.2.1 "v" Dtype.obj _ (by decide)⟩

/-! ### Missing-value configuration -/

/-- C4 (amended): an unrecognized strategy name (anything outside the
seven supported ones) makes `handle_missing_values` fail with the
configuration error, but the `fill` strategy WITHOUT a fill-value mapping
does not fail: it only logs a warning and returns the dataframe
unchanged, silently doing nothing. -/
theorem handle_missing_values_config :
    (∀ (df : Dataset) (s : String) (fv : Option (List (String × Cell))),
        s ∉ (["drop", "fill", "mean", "median", "mode", "forward_fill",
              "backward_fill"] : List String) →
        handle_missing_values df s fv
          = Except.error ("Unknown strategy " ++ s ++ " for handling missing values."))
    ∧ (∀ df : Dataset, handle_missing_values df "fill" none = Except.ok df) := by
  constructor
  · intro df s fv h
    simp only [List.mem_cons, List.not_mem_nil, or_false, not_or] at h
    obtain ⟨h1, h2, h3, h4, h5, h6, h7⟩ := h
    unfold handle_missing_values
    rw [if_neg h1, if_neg h2, if_neg h3, if_neg h4, if_neg h5, if_neg h6, if_neg h7]
  · intro df
    rfl

/-- Witness for C4 at the concrete unknown strategy name "bogus". -/
theorem handle_missing_values_config_witness :
    ("bogus" ∉ (["drop", "fill", "mean", "median", "mode", "forward_fill",
        "backward_fill"] : List String))
    ∧ handle_missing_values ⟨[], []⟩ "bogus" none
        = Except.error ("Unknown strategy " ++ "bogus" ++ " for handling missing values.") :=
  ⟨by decide, handle_missing_values_config.1 ⟨[], []⟩ "bogus" none (by decide)⟩

/-! ### String normalization -/

/-- C6: string normalization maps each cell of every Text (`object`)
column independently through strip, lowercase, newline/tab to space,
space-run collapsing, and the allow-set filter, in that order; columns of
other dtypes are untouched; the cell `"  Hello\tWorld!!  "` becomes
`"hello world!!"`. -/
theorem clean_string_columns_spec :
    (∀ ds : Dataset, (clean_string_columns ds).headers = ds.headers
        ∧ (clean_string_columns ds).rows
            = ds.rows.map (fun r => List.zipWith cleanHC ds.headers r))
    ∧ (∀ (h : Header) (s : String), h.dtype = Dtype.obj →
        cleanHC h (Cell.str s) = Cell.str (normalizeString s))
    ∧ (∀ (h : Header) (c : Cell), h.dtype ≠ Dtype.obj → cleanHC h c = c)
    ∧ normalizeString "  Hello\tWorld!!  " = "hello world!!" := by
  refine ⟨fun ds => ⟨rfl, rfl⟩, fun h s hh => ?_, fun h c hh => ?_, rfl⟩
  · simp [cleanHC, hh, cellToPyStr]
  · simp [cleanHC, hh]

/-- Witness for C6 at a concrete object-typed header and the example cell. -/
theorem clean_string_columns_spec_witness :
    (Header.mk "c" Dtype.obj).dtype = Dtype.obj
    ∧ cleanHC ⟨"c", Dtype.obj⟩ (Cell.str "  Hello\tWorld!!  ")
        = Cell.str (normalizeString "  Hello\tWorld!!  ") :=
  ⟨rfl, clean_string_columns_spec.2.1 ⟨"c", Dtype.obj⟩ "  Hello\tWorld!!  " rfl⟩

/-- C9: after string normalization no cell of an `object` column is a
Missing marker: `astype(str)` renders NaN as the literal string "nan",
which then passes through the cleaning chain unchanged, so missing-ness
does not survive the stage in Text columns. -/
theorem clean_string_columns_no_missing :
    (∀ (h : Header) (c : Cell), h.dtype = Dtype.obj → cleanHC h c ≠ Cell.missing)
    ∧ (∀ h : Header, h.dtype = Dtype.obj → cleanHC h Cell.missing = Cell.str "nan")
    ∧ (∀ (ds : Dataset) (r : List Cell) (j : ℕ) (h : Header),
        r ∈ (clean_string_columns ds).rows → ds.headers.get? j = some h →
        h.dtype = Dtype.obj → r.get? j ≠ some Cell.missing) := by
  have h1 : ∀ (h : Header) (c : Cell), h.dtype = Dtype.obj → cleanHC h c ≠ Cell.missing := by
    intro h c hh
    simp [cleanHC, hh]
  refine ⟨h1, fun h hh => by simp [cleanHC, hh, cellToPyStr]; rfl, ?_⟩
  intro ds r j h hr hj hh hcontra
  obtain ⟨r0, _, hr0⟩ := List.mem_map.mp hr
  rw [← hr0] at hcontra
  obtain ⟨x, y, hx, _, hxy⟩ := (List.get?_zipWith_eq_some cleanHC ds.headers r0
    Cell.missing j).mp hcontra
  rw [hj] at hx
  exact h1 x y (by cases hx; exact hh) hxy

/-- Witness for C9 at a dataset whose only (object) column holds one
Missing cell: the cleaned row is `[str "nan"]` and its cell is not
Missing. -/
theorem clean_string_columns_no_missing_witness :
    [Cell.str "nan"] ∈ (clean_string_columns
        ⟨[⟨"c", Dtype.obj⟩], [[Cell.missing]]⟩).rows
    ∧ [Cell.str "nan"].get? 0 ≠ some Cell.missing := by
  have hmem : [Cell.str "nan"] ∈ (clean_string_columns
      ⟨[⟨"c", Dtype.obj⟩], [[Cell.missing]]⟩).rows := by decide
  exact ⟨hmem, clean_string_columns_no_missing.2.2 _ _ 0 ⟨"c", Dtype.obj⟩ hmem rfl rfl⟩

/-! ### Pipeline row count and dedup idempotence -/

theorem dedupRows_sublist {α : Type} [DecidableEq α] :
    ∀ (l seen : List α), (dedupRows seen l).Sublist l
  | [], _ => List.Sublist.refl _
  | r :: rs, seen => by
    rw [dedupRows]
    by_cases hr : r ∈ seen
    · rw [if_pos hr]
      exact (dedupRows_sublist rs seen).cons r
    · rw [if_neg hr]
      exact (dedupRows_sublist rs (r :: seen)).cons₂ r

theorem dedupRows_nil_eq {α : Type} [DecidableEq α] (l : List α) :
    dedupRows [] l = specDedup l := by
  rw [dedupRows_eq_specDedup]
  congr 1
  exact List.filter_eq_self.mpr (fun a _ => by simp)

theorem dedupRows_idem {α : Type} [DecidableEq α] (l : List α) :
    dedupRows [] (dedupRows [] l) = dedupRows [] l := by
  rw [dedupRows_nil_eq, dedupRows_nil_eq]
  exact specDedup_eq_self _ (specDedup_nodup l)

theorem convertColumn_length :
    ∀ (fmts : List DateFmt) (cells : List Cell),
      (convertColumn fmts cells).length = cells.length
  | [], _ => rfl
  | f :: fs, cells => by
    rw [convertColumn]
    split
    · simp
    · rw [convertColumn_length fs]
      simp

theorem colCells_length (rows : List (List Cell)) (j : ℕ) :
    (colCells rows j).length = rows.length := by
  simp [colCells]

theorem setCol_length (rows : List (List Cell)) (j : ℕ) (cells : List Cell)
    (h : cells.length = rows.length) : (setCol rows j cells).length = rows.length := by
  simp [setCol, h]

theorem foldl_setCol_convert_length :
    ∀ (idxs : List ℕ) (rows : List (List Cell)),
      (idxs.foldl (fun rows j =>
        setCol rows j (convertColumn dateFormats (colCells rows j))) rows).length
      = rows.length
  | [], _ => rfl
  | j :: js, rows => by
    rw [List.foldl_cons, foldl_setCol_convert_length js]
    exact setCol_length _ _ _ (by rw [convertColumn_length, colCells_length])

theorem convert_dates_rows_length (ds : Dataset) :
    (convert_dates ds).rows.length = ds.rows.length :=
  foldl_setCol_convert_length (dateIdxs ds.headers) ds.rows

theorem clean_rows_length (ds : Dataset) :
    (clean_string_columns ds).rows.length = ds.rows.length := by
  simp [clean_string_columns]

theorem infer_rows_length (ds : Dataset) :
    (infer_and_convert_types ds).rows.length = ds.rows.length := by
  simp [infer_and_convert_types]

theorem drop_duplicates_length_le (ds : Dataset) :
    (drop_duplicates ds).rows.length ≤ ds.rows.length :=
  (dedupRows_sublist ds.rows []).length_le

theorem detect_outliers_length_le (ds : Dataset) (cols : List String) (t : ℚ) :
    (detect_outliers ds cols t).rows.length ≤ ds.rows.length :=
  (foldl_outlierStep_sublist ds.headers t cols ds.rows).length_le

theorem pipeline_eq_preMissing (ds : Dataset) :
    pipeline ds = Except.ok (constFill (meanFills (preMissing ds)) (preMissing ds)) := rfl

theorem preMissing_length_le (ds : Dataset) :
    (preMissing ds).rows.length ≤ ds.rows.length := by
  have hchain : (infer_and_convert_types (convert_dates
      (clean_string_columns (drop_duplicates ds)))).rows.length ≤ ds.rows.length := by
    rw [infer_rows_length, convert_dates_rows_length, clean_rows_length]
    exact drop_duplicates_length_le ds
  unfold preMissing
  split
  · exact le_trans (detect_outliers_length_le _ _ _) hchain
  · exact hchain

/-- C8 (amended): full idempotence fails (see the counterexample theorem:
normalization can expose new trailing whitespace, and the outlier stage
recomputes statistics on its own output), but a second run of the pipeline
on its own output always succeeds and never increases the row count, and
the deduplication stage itself is idempotent. -/
theorem pipeline_second_run :
    (∀ ds : Dataset, ∃ d : Dataset, pipeline ds = Except.ok d
        ∧ d.rows.length ≤ ds.rows.length)
    ∧ (∀ rows : List (List Cell), dedupRows [] (dedupRows [] rows) = dedupRows [] rows) := by
  constructor
  · intro ds
    refine ⟨_, pipeline_eq_preMissing ds, ?_⟩
    have hc : (constFill (meanFills (preMissing ds)) (preMissing ds)).rows.length
        = (preMissing ds).rows.length := by simp [constFill]
    rw [hc]
    exact preMissing_length_le ds
  · intro rows
    exact dedupRows_idem rows
